import Mathlib

/-!
Verification of the IBKRapp backend core (`src/backend/main.py`) against its
natural-language specification.

Shallow embedding conventions:
* Python floats are modelled as exact rationals (`ℚ`).  A Python float value
  that is not a number instance (e.g. `None`) or not finite (NaN/inf) is
  modelled by `Option`/`PyFloat` as noted at each definition.
* The one place where the gap between a decimal literal and its IEEE-754
  binary64 value is observable is the fallback risk literal `0.01` in
  `_do_order`: the binary64 double nearest to 0.01 is
  5764607523034235 / 2^59, which is strictly greater than 1/100, and
  Python's float floor division `200 // 0.01` evaluates to 19999.0 (not
  20000.0).  The constant `fallbackRisk` below is that exact binary64
  rational, so the embedding reproduces the quantity the program computes.
* Times of day (`datetime.now().time()` compared against the 09:30 and
  16:00 session bounds) are modelled as seconds after midnight (`ℕ`).
* The mutable dict `symbol_data` is modelled as a function
  `String → Option Entry`; the websocket client set as a `List`.
-/

/-- Regular-session start, 09:30, in seconds after midnight
(`TRADING_START = dt_time(9, 30)`). -/
def TRADING_START : ℕ := 34200

/-- Regular-session end, 16:00, in seconds after midnight
(`TRADING_END = dt_time(16, 0)`). -/
def TRADING_END : ℕ := 57600

/-- A Python float value: either a finite number (modelled exactly as a
rational) or a non-finite float (NaN or an infinity), which fails the
`math.isfinite` test in `_on_pending_tickers`. -/
inductive PyFloat where
  | fin (q : ℚ)
  | nonfin
deriving DecidableEq, Repr

/-- Per-symbol aggregate state: one value of the `symbol_data[sym]` dict
initialised in `_subscribe`. -/
structure Entry where
  price : Option ℚ
  hod : Option ℚ
  lod : Option ℚ
  vwap_num : ℚ
  vwap_den : ℚ
  vwap : Option ℚ
  testMode : Bool
deriving DecidableEq, Repr

/-- The fresh per-symbol state installed by `_subscribe` for each symbol. -/
def initEntry (tm : Bool) : Entry :=
  { price := none, hod := none, lod := none,
    vwap_num := 0, vwap_den := 0, vwap := none, testMode := tm }

/-- One tick event as seen by `_on_pending_tickers`: `last` is `none` when
`t.last` is not a number instance (so the code falls back to
`t.marketPrice()`), `marketPrice` is that fallback, `lastSize` is the
`getattr(t, "lastSize", 0) or 0` size, and `now` is the time of day
(seconds after midnight) at which the callback runs. -/
structure Tick where
  last : Option PyFloat
  marketPrice : PyFloat
  lastSize : ℚ
  now : ℕ
deriving DecidableEq, Repr

/-- Effective price resolution of `_on_pending_tickers` lines 45-47:
`p = t.last if isinstance(t.last, (int, float)) else t.marketPrice()`,
then the tick is discarded unless `p` is a finite number. -/
def effPrice (t : Tick) : Option ℚ :=
  match t.last with
  | some (.fin q) => some q
  | some .nonfin => none
  | none =>
    match t.marketPrice with
    | .fin q => some q
    | .nonfin => none

/-- `in_rth = entry["testMode"] or (TRADING_START <= now <= TRADING_END)`. -/
def inRTHb (tm : Bool) (now : ℕ) : Bool :=
  tm || (decide (TRADING_START ≤ now) && decide (now ≤ TRADING_END))

/-- Lines 50-58 of `_on_pending_tickers` (run only when `in_rth`): seed
`hod = lod = p` when `hod` is still null, then raise `hod` when `p` exceeds
it and lower `lod` when `p` undercuts it. -/
def updHodLod (e : Entry) (p : ℚ) : Entry :=
  let e1 := if e.hod = none then { e with hod := some p, lod := some p } else e
  let e2 := if p > e1.hod.getD p then { e1 with hod := some p } else e1
  if p < e2.lod.getD p then { e2 with lod := some p } else e2

/-- Lines 59-63 of `_on_pending_tickers` (run only when `in_rth`): when the
tick size is positive, accumulate the vwap numerator and denominator and
recompute `vwap` as their quotient. -/
def updVwap (e : Entry) (p s : ℚ) : Entry :=
  if 0 < s then
    { e with vwap_num := e.vwap_num + p * s,
             vwap_den := e.vwap_den + s,
             vwap := some ((e.vwap_num + p * s) / (e.vwap_den + s)) }
  else e

/-- One iteration of the `_on_pending_tickers` loop body for a tracked
symbol: resolve the effective price (discarding the tick when none is
finite), always store it in `price`, and apply the session-gated hod/lod
and vwap updates. -/
def applyTick (e : Entry) (t : Tick) : Entry :=
  match effPrice t with
  | none => e
  | some p =>
    let e1 : Entry := { e with price := some p }
    if inRTHb e1.testMode t.now then updVwap (updHodLod e1 p) p t.lastSize
    else e1

/-- Applying a whole sequence of ticks to one symbol's state. -/
def applyTicks (e : Entry) (ts : List Tick) : Entry :=
  ts.foldl applyTick e

/-- The contribution a tick makes to the vwap accumulators: `some (p, s)`
when the tick resolves a finite effective price `p`, is in session for the
entry's test mode, and has positive size `s`; `none` otherwise. -/
def vwapContrib (tm : Bool) (t : Tick) : Option (ℚ × ℚ) :=
  match effPrice t with
  | some p =>
    if inRTHb tm t.now && decide (0 < t.lastSize) then some (p, t.lastSize)
    else none
  | none => none

/-- Sum of `price * size` over the vwap-contributing ticks of a sequence. -/
def contribNum (tm : Bool) (ts : List Tick) : ℚ :=
  ((ts.filterMap (vwapContrib tm)).map (fun x => x.1 * x.2)).sum

/-- Sum of sizes over the vwap-contributing ticks of a sequence. -/
def contribDen (tm : Bool) (ts : List Tick) : ℚ :=
  ((ts.filterMap (vwapContrib tm)).map (fun x => x.2)).sum

-- Frame lemmas: the hod/lod update never touches the other fields.

lemma updHodLod_price (e : Entry) (p : ℚ) : (updHodLod e p).price = e.price := by
  unfold updHodLod
  dsimp only
  split <;> split <;> split <;> rfl

lemma updHodLod_vwap_num (e : Entry) (p : ℚ) :
    (updHodLod e p).vwap_num = e.vwap_num := by
  unfold updHodLod
  dsimp only
  split <;> split <;> split <;> rfl

lemma updHodLod_vwap_den (e : Entry) (p : ℚ) :
    (updHodLod e p).vwap_den = e.vwap_den := by
  unfold updHodLod
  dsimp only
  split <;> split <;> split <;> rfl

lemma updHodLod_vwap (e : Entry) (p : ℚ) : (updHodLod e p).vwap = e.vwap := by
  unfold updHodLod
  dsimp only
  split <;> split <;> split <;> rfl

lemma updHodLod_testMode (e : Entry) (p : ℚ) :
    (updHodLod e p).testMode = e.testMode := by
  unfold updHodLod
  dsimp only
  split <;> split <;> split <;> rfl

-- Frame lemmas: the vwap update never touches price/hod/lod/testMode.

lemma updVwap_price (e : Entry) (p s : ℚ) : (updVwap e p s).price = e.price := by
  unfold updVwap; split <;> rfl

lemma updVwap_hod (e : Entry) (p s : ℚ) : (updVwap e p s).hod = e.hod := by
  unfold updVwap; split <;> rfl

lemma updVwap_lod (e : Entry) (p s : ℚ) : (updVwap e p s).lod = e.lod := by
  unfold updVwap; split <;> rfl

lemma updVwap_testMode (e : Entry) (p s : ℚ) :
    (updVwap e p s).testMode = e.testMode := by
  unfold updVwap; split <;> rfl

lemma applyTick_testMode (e : Entry) (t : Tick) :
    (applyTick e t).testMode = e.testMode := by
  unfold applyTick
  split
  · rfl
  · dsimp only
    split
    · rw [updVwap_testMode, updHodLod_testMode]
    · rfl

lemma applyTick_contrib_none (e : Entry) (t : Tick)
    (h : vwapContrib e.testMode t = none) :
    (applyTick e t).vwap_num = e.vwap_num ∧
    (applyTick e t).vwap_den = e.vwap_den ∧
    (applyTick e t).vwap = e.vwap := by
  unfold applyTick
  cases heq : effPrice t with
  | none => exact ⟨rfl, rfl, rfl⟩
  | some p =>
    rw [vwapContrib, heq] at h
    dsimp only
    split
    · next hin =>
      have hsz : ¬ (0 < t.lastSize) := by
        intro hpos
        rw [hin, decide_eq_true hpos] at h
        simp at h
      rw [updVwap, if_neg hsz]
      exact ⟨updHodLod_vwap_num _ _, updHodLod_vwap_den _ _, updHodLod_vwap _ _⟩
    · exact ⟨rfl, rfl, rfl⟩

lemma applyTick_contrib_some (e : Entry) (t : Tick) (p s : ℚ)
    (h : vwapContrib e.testMode t = some (p, s)) :
    (applyTick e t).vwap_num = e.vwap_num + p * s ∧
    (applyTick e t).vwap_den = e.vwap_den + s ∧
    (applyTick e t).vwap = some ((e.vwap_num + p * s) / (e.vwap_den + s)) := by
  unfold applyTick
  cases heq : effPrice t with
  | none => rw [vwapContrib, heq] at h; exact absurd h (by simp)
  | some q =>
    rw [vwapContrib, heq] at h
    dsimp only at h ⊢
    by_cases hc : (inRTHb e.testMode t.now && decide (0 < t.lastSize)) = true
    · rw [if_pos hc] at h
      obtain ⟨hq, hs⟩ : q = p ∧ t.lastSize = s := by
        simpa using h
      obtain ⟨hin, hsz⟩ : inRTHb e.testMode t.now = true ∧ 0 < t.lastSize := by
        simpa using hc
      rw [if_pos hin, updVwap, if_pos hsz,
          updHodLod_vwap_num, updHodLod_vwap_den]
      subst hq hs
      exact ⟨rfl, rfl, rfl⟩
    · rw [if_neg hc] at h; exact absurd h (by simp)

lemma contribNum_eq_zero (tm : Bool) (ts : List Tick)
    (h : ts.filterMap (vwapContrib tm) = []) : contribNum tm ts = 0 := by
  rw [contribNum, h]; rfl

lemma contribDen_eq_zero (tm : Bool) (ts : List Tick)
    (h : ts.filterMap (vwapContrib tm) = []) : contribDen tm ts = 0 := by
  rw [contribDen, h]; rfl

lemma applyTicks_vwap_spec (ts : List Tick) : ∀ e : Entry,
    (applyTicks e ts).vwap_num = e.vwap_num + contribNum e.testMode ts ∧
    (applyTicks e ts).vwap_den = e.vwap_den + contribDen e.testMode ts ∧
    (ts.filterMap (vwapContrib e.testMode) = [] →
      (applyTicks e ts).vwap = e.vwap) ∧
    (ts.filterMap (vwapContrib e.testMode) ≠ [] →
      (applyTicks e ts).vwap =
        some ((e.vwap_num + contribNum e.testMode ts) /
              (e.vwap_den + contribDen e.testMode ts))) := by
  induction ts with
  | nil =>
    intro e
    refine ⟨by simp [applyTicks, contribNum], by simp [applyTicks, contribDen],
      fun _ => rfl, fun hne => absurd rfl hne⟩
  | cons t ts ih =>
    intro e
    have hstep : applyTicks e (t :: ts) = applyTicks (applyTick e t) ts := rfl
    have htm : (applyTick e t).testMode = e.testMode := applyTick_testMode e t
    obtain ⟨ihn, ihd, ihe, ihne⟩ := ih (applyTick e t)
    rw [htm] at ihn ihd ihe ihne
    cases hc : vwapContrib e.testMode t with
    | none =>
      obtain ⟨sn, sd, sv⟩ := applyTick_contrib_none e t hc
      have hfm : (t :: ts).filterMap (vwapContrib e.testMode) =
          ts.filterMap (vwapContrib e.testMode) := by
        rw [List.filterMap_cons_none hc]
      have hn : contribNum e.testMode (t :: ts) = contribNum e.testMode ts := by
        rw [contribNum, contribNum, hfm]
      have hd : contribDen e.testMode (t :: ts) = contribDen e.testMode ts := by
        rw [contribDen, contribDen, hfm]
      refine ⟨?_, ?_, ?_, ?_⟩
      · rw [hstep, ihn, sn, hn]
      · rw [hstep, ihd, sd, hd]
      · intro hnil
        rw [hfm] at hnil
        rw [hstep, ihe hnil, sv]
      · intro hne
        rw [hfm] at hne
        rw [hstep, ihne hne, sn, sd, hn, hd]
    | some ps =>
      obtain ⟨p, s⟩ := ps
      obtain ⟨sn, sd, sv⟩ := applyTick_contrib_some e t p s hc
      have hfm : (t :: ts).filterMap (vwapContrib e.testMode) =
          (p, s) :: ts.filterMap (vwapContrib e.testMode) := by
        rw [List.filterMap_cons_some hc]
      have hn : contribNum e.testMode (t :: ts) =
          p * s + contribNum e.testMode ts := by
        rw [contribNum, contribNum, hfm, List.map_cons, List.sum_cons]
      have hd : contribDen e.testMode (t :: ts) =
          s + contribDen e.testMode ts := by
        rw [contribDen, contribDen, hfm, List.map_cons, List.sum_cons]
      refine ⟨?_, ?_, ?_, ?_⟩
      · rw [hstep, ihn, sn, hn]; ring
      · rw [hstep, ihd, sd, hd]; ring
      · intro hnil; rw [hfm] at hnil; exact absurd hnil (by simp)
      · intro _
        by_cases hnil : ts.filterMap (vwapContrib e.testMode) = []
        · rw [hstep, ihe hnil, sv, hn, hd,
              contribNum_eq_zero _ _ hnil, contribDen_eq_zero _ _ hnil]
          ring_nf
        · rw [hstep, ihne hnil, sn, sd, hn, hd]
          ring_nf

/-- C7: applying any tick sequence to a freshly initialised symbol entry
leaves `vwap` equal to `Σ (pi * si) / Σ si` summed over exactly the
in-session positive-size ticks that resolve a finite price; size-0
in-session ticks and out-of-session ticks contribute nothing (they are
absent from `vwapContrib`'s filter). -/
theorem vwap_is_weighted_average (tm : Bool) (ts : List Tick)
    (h : ts.filterMap (vwapContrib tm) ≠ []) :
    (applyTicks (initEntry tm) ts).vwap_num = contribNum tm ts ∧
    (applyTicks (initEntry tm) ts).vwap_den = contribDen tm ts ∧
    (applyTicks (initEntry tm) ts).vwap =
      some (contribNum tm ts / contribDen tm ts) := by
  obtain ⟨hn, hd, _, hne⟩ := applyTicks_vwap_spec ts (initEntry tm)
  have htm : (initEntry tm).testMode = tm := rfl
  rw [htm] at hn hd hne
  have h0 : (initEntry tm).vwap_num = 0 := rfl
  have h0d : (initEntry tm).vwap_den = 0 := rfl
  rw [h0, zero_add] at hn
  rw [h0d, zero_add] at hd
  refine ⟨hn, hd, ?_⟩
  have := hne h
  rw [h0, h0d, zero_add, zero_add] at this
  exact this

/-- Witness for C7 at a concrete input: a single in-session tick of price
10 and size 2 (testMode on) gives vwap 10. -/
theorem vwap_is_weighted_average_witness :
    ([⟨some (.fin 10), .nonfin, 2, 0⟩] : List Tick).filterMap
        (vwapContrib true) ≠ [] ∧
    ((applyTicks (initEntry true) [⟨some (.fin 10), .nonfin, 2, 0⟩]).vwap_num =
        contribNum true [⟨some (.fin 10), .nonfin, 2, 0⟩] ∧
      (applyTicks (initEntry true) [⟨some (.fin 10), .nonfin, 2, 0⟩]).vwap_den =
        contribDen true [⟨some (.fin 10), .nonfin, 2, 0⟩] ∧
      (applyTicks (initEntry true) [⟨some (.fin 10), .nonfin, 2, 0⟩]).vwap =
        some (contribNum true [⟨some (.fin 10), .nonfin, 2, 0⟩] /
              contribDen true [⟨some (.fin 10), .nonfin, 2, 0⟩])) :=
  ⟨by decide, vwap_is_weighted_average true _ (by decide)⟩

/-- C5: a tick processed outside regular trading hours for an entry with
`testMode = false` updates only `price`; `hod`, `lod`, `vwap` and the two
vwap accumulators are untouched (the whole-record equality asserts this). -/
theorem out_of_session_tick_price_only (e : Entry) (t : Tick) (p : ℚ)
    (htm : e.testMode = false)
    (hout : t.now < TRADING_START ∨ TRADING_END < t.now)
    (hp : effPrice t = some p) :
    applyTick e t = { e with price := some p } := by
  unfold applyTick
  rw [hp]
  dsimp only
  have hrth : inRTHb e.testMode t.now = false := by
    rw [htm, inRTHb]
    simp only [Bool.false_or, Bool.and_eq_false_iff]
    rcases hout with h1 | h1
    · left
      simpa [TRADING_START] using Nat.not_le.mpr h1
    · right
      simpa [TRADING_END] using Nat.not_le.mpr h1
  rw [if_neg (by rw [hrth]; exact Bool.false_ne_true)]

/-- Witness for C5 at a concrete input: a pre-open tick (04:00 = 14400 s)
on a live (non-test) entry changes only the price. -/
theorem out_of_session_tick_price_only_witness :
    (⟨some 5, some 6, some 4, 8, 2, some 3, false⟩ : Entry).testMode = false ∧
    ((⟨some (.fin 7), .nonfin, 3, 14400⟩ : Tick).now < TRADING_START ∨
      TRADING_END < (⟨some (.fin 7), .nonfin, 3, 14400⟩ : Tick).now) ∧
    effPrice ⟨some (.fin 7), .nonfin, 3, 14400⟩ = some 7 ∧
    applyTick ⟨some 5, some 6, some 4, 8, 2, some 3, false⟩
        ⟨some (.fin 7), .nonfin, 3, 14400⟩ =
      { (⟨some 5, some 6, some 4, 8, 2, some 3, false⟩ : Entry) with
        price := some 7 } :=
  ⟨rfl, by decide, rfl,
    out_of_session_tick_price_only _ _ _ rfl (by decide) rfl⟩

-- hod/lod update lemmas for seeded entries.

lemma updHodLod_seeded (e : Entry) (p h l : ℚ)
    (hh : e.hod = some h) (hl : e.lod = some l) :
    (updHodLod e p).hod = some (max h p) ∧
    (updHodLod e p).lod = some (min l p) := by
  have hne : ¬ (e.hod = none) := by rw [hh]; simp
  unfold updHodLod
  dsimp only
  rw [if_neg hne, hh, Option.getD_some]
  rcases lt_or_le h p with hc | hc
  · rw [if_pos hc]
    dsimp only
    rw [hl, Option.getD_some]
    rcases lt_or_le p l with hc2 | hc2
    · rw [if_pos hc2]
      constructor <;> simp [max_eq_right hc.le, min_eq_right hc2.le]
    · rw [if_neg (not_lt.mpr hc2)]
      constructor <;> simp [hl, max_eq_right hc.le, min_eq_left hc2]
  · rw [if_neg (not_lt.mpr hc), hl, Option.getD_some]
    rcases lt_or_le p l with hc2 | hc2
    · rw [if_pos hc2]
      constructor <;> simp [hh, max_eq_left hc, min_eq_right hc2.le]
    · rw [if_neg (not_lt.mpr hc2)]
      constructor <;> simp [hh, hl, max_eq_left hc, min_eq_left hc2]

lemma applyTick_hodlod_step (e : Entry) (t : Tick) (h l : ℚ)
    (hh : e.hod = some h) (hl : e.lod = some l) :
    ∃ h₁ l₁, (applyTick e t).hod = some h₁ ∧ (applyTick e t).lod = some l₁ ∧
      h ≤ h₁ ∧ l₁ ≤ l ∧ (l ≤ h → l₁ ≤ h₁) := by
  unfold applyTick
  cases heq : effPrice t with
  | none => exact ⟨h, l, hh, hl, le_refl h, le_refl l, fun hlh => hlh⟩
  | some p =>
    dsimp only
    split
    · have hh1 : (⟨some p, e.hod, e.lod, e.vwap_num, e.vwap_den, e.vwap,
          e.testMode⟩ : Entry).hod = some h := hh
      have hl1 : (⟨some p, e.hod, e.lod, e.vwap_num, e.vwap_den, e.vwap,
          e.testMode⟩ : Entry).lod = some l := hl
      obtain ⟨hhod, hlod⟩ := updHodLod_seeded _ p h l hh1 hl1
      refine ⟨max h p, min l p, ?_, ?_, le_max_left h p, min_le_left l p, ?_⟩
      · rw [updVwap_hod, hhod]
      · rw [updVwap_lod, hlod]
      · intro hlh
        exact le_trans (min_le_left l p)
          (le_trans hlh (le_max_left h p))
    · exact ⟨h, l, hh, hl, le_refl h, le_refl l, fun hlh => hlh⟩

lemma applyTicks_hodlod (ts : List Tick) : ∀ (e : Entry) (h l : ℚ),
    e.hod = some h → e.lod = some l →
    ∃ h₁ l₁, (applyTicks e ts).hod = some h₁ ∧
      (applyTicks e ts).lod = some l₁ ∧
      h ≤ h₁ ∧ l₁ ≤ l ∧ (l ≤ h → l₁ ≤ h₁) := by
  induction ts with
  | nil =>
    intro e h l hh hl
    exact ⟨h, l, hh, hl, le_refl h, le_refl l, fun hlh => hlh⟩
  | cons t ts ih =>
    intro e h l hh hl
    obtain ⟨h₁, l₁, hh₁, hl₁, hmono₁, lmono₁, hord₁⟩ :=
      applyTick_hodlod_step e t h l hh hl
    obtain ⟨h₂, l₂, hh₂, hl₂, hmono₂, lmono₂, hord₂⟩ :=
      ih (applyTick e t) h₁ l₁ hh₁ hl₁
    exact ⟨h₂, l₂, hh₂, hl₂, le_trans hmono₁ hmono₂, le_trans lmono₂ lmono₁,
      fun hlh => hord₂ (hord₁ hlh)⟩

/-- C8: once `hod` and `lod` are seeded, any further tick sequence can only
raise `hod` and lower `lod`, and `hod ≥ lod` holds afterwards (and hence
after every intermediate tick, since the statement applies to every
prefix). -/
theorem hod_lod_monotone (e : Entry) (ts : List Tick) (h l : ℚ)
    (hh : e.hod = some h) (hl : e.lod = some l) (hseed : l ≤ h) :
    ∃ h₁ l₁, (applyTicks e ts).hod = some h₁ ∧
      (applyTicks e ts).lod = some l₁ ∧
      h ≤ h₁ ∧ l₁ ≤ l ∧ l₁ ≤ h₁ := by
  obtain ⟨h₁, l₁, hh₁, hl₁, hmono, lmono, hord⟩ :=
    applyTicks_hodlod ts e h l hh hl
  exact ⟨h₁, l₁, hh₁, hl₁, hmono, lmono, hord hseed⟩

/-- Witness for C8 at a concrete input: a seeded entry (hod 6, lod 4) and
one in-session tick. -/
theorem hod_lod_monotone_witness :
    (⟨some 5, some 6, some 4, 8, 2, some 3, true⟩ : Entry).hod = some 6 ∧
    (⟨some 5, some 6, some 4, 8, 2, some 3, true⟩ : Entry).lod = some 4 ∧
    (4 : ℚ) ≤ 6 ∧
    ∃ h₁ l₁,
      (applyTicks ⟨some 5, some 6, some 4, 8, 2, some 3, true⟩
          [⟨some (.fin 7), .nonfin, 1, 36000⟩]).hod = some h₁ ∧
      (applyTicks ⟨some 5, some 6, some 4, 8, 2, some 3, true⟩
          [⟨some (.fin 7), .nonfin, 1, 36000⟩]).lod = some l₁ ∧
      (6 : ℚ) ≤ h₁ ∧ l₁ ≤ 4 ∧ l₁ ≤ h₁ :=
  ⟨rfl, rfl, by norm_num,
    hod_lod_monotone _ [⟨some (.fin 7), .nonfin, 1, 36000⟩] 6 4 rfl rfl
      (by norm_num)⟩

/-- Symbol normalisation in `_subscribe` and `place_order`:
`raw.strip().upper()`. -/
def normalizeSym (raw : String) : String := raw.trim.toUpper

/-- The `symbol_data` replacement performed by `_subscribe`: the previous
map is discarded (`symbol_data.clear()`) and each normalised symbol is
inserted with the fresh all-null entry.  Later duplicates overwrite
earlier ones, as in a Python dict. -/
def subscribeData (_old : String → Option Entry) (symbols : List String)
    (tm : Bool) : String → Option Entry :=
  symbols.foldl
    (fun m raw s => if s = normalizeSym raw then some (initEntry tm) else m s)
    (fun _ => none)

lemma subscribe_foldl_lookup (tm : Bool) (symbols : List String) :
    ∀ (m : String → Option Entry) (s : String),
    (symbols.foldl
      (fun m raw s =>
        if s = normalizeSym raw then some (initEntry tm) else m s) m) s =
      if s ∈ symbols.map normalizeSym then some (initEntry tm) else m s := by
  induction symbols with
  | nil => intro m s; simp
  | cons raw syms ih =>
    intro m s
    rw [List.map_cons, List.foldl_cons, ih]
    by_cases hmem : s ∈ syms.map normalizeSym
    · rw [if_pos hmem, if_pos (List.mem_cons_of_mem _ hmem)]
    · rw [if_neg hmem]
      by_cases heq : s = normalizeSym raw
      · dsimp only
        rw [if_pos heq, if_pos (List.mem_cons.mpr (Or.inl heq))]
      · dsimp only
        rw [if_neg heq, if_neg (by simp [List.mem_cons, heq, hmem])]

/-- C6: after a successful non-empty subscribe, the symbol map holds
exactly the normalised (trimmed, upper-cased, de-duplicated) new symbols,
each bound to the fresh all-null entry, and any symbol outside that set —
in particular every symbol of the previous configuration not re-added —
is absent. -/
theorem subscribe_replaces_watchlist (old : String → Option Entry)
    (symbols : List String) (tm : Bool) (s : String)
    (hne : symbols ≠ []) :
    (s ∈ symbols.map normalizeSym →
      subscribeData old symbols tm s = some (initEntry tm)) ∧
    (s ∉ symbols.map normalizeSym →
      subscribeData old symbols tm s = none) := by
  unfold subscribeData
  rw [subscribe_foldl_lookup]
  constructor
  · intro hmem; rw [if_pos hmem]
  · intro hmem; rw [if_neg hmem]

/-- A sample previous watchlist configuration, used by the C6 witness. -/
def sampleOldData : String → Option Entry :=
  fun s => if s = "TSLA" then some (initEntry false) else none

/-- Witness for C6 at a concrete input: resubscribing with a raw list
whose first element normalises to AAPL. -/
theorem subscribe_replaces_watchlist_witness :
    ([" aapl", "MSFT"] : List String) ≠ [] ∧
    (("AAPL" : String) ∈ ([" aapl", "MSFT"]).map normalizeSym →
      subscribeData sampleOldData [" aapl", "MSFT"] false "AAPL" =
        some (initEntry false)) ∧
    (("AAPL" : String) ∉ ([" aapl", "MSFT"]).map normalizeSym →
      subscribeData sampleOldData [" aapl", "MSFT"] false "AAPL" = none) :=
  ⟨by decide,
    subscribe_replaces_watchlist sampleOldData [" aapl", "MSFT"] false "AAPL"
      (by decide)⟩

/-- Whether `await ws.send_text(data)` succeeds for a subscriber: the
`try`/bare-`except` in `_broadcast_update` turns the send outcome into a
keep/remove decision. -/
def trySend (outcome : ℕ → Except String Unit) (ws : ℕ) : Bool :=
  match outcome ws with
  | .ok _ => true
  | .error _ => false

/-- `_broadcast_update`: iterate over all subscribers, collect those whose
send fails into `to_remove`, then discard exactly those from the set.
Every send error is caught by the bare `except`, so the function itself
always returns `.ok (remaining subscribers, successfully sent list)`. -/
def broadcastUpdate (clients : List ℕ) (outcome : ℕ → Except String Unit) :
    Except String (List ℕ × List ℕ) :=
  let r := clients.foldl
    (fun (acc : List ℕ × List ℕ) ws =>
      if trySend outcome ws then (acc.1 ++ [ws], acc.2)
      else (acc.1, acc.2 ++ [ws]))
    ([], [])
  .ok (clients.filter (fun ws => decide (ws ∉ r.2)), r.1)

lemma broadcast_foldl (outcome : ℕ → Except String Unit) (l : List ℕ) :
    ∀ d r : List ℕ,
    l.foldl
      (fun (acc : List ℕ × List ℕ) ws =>
        if trySend outcome ws then (acc.1 ++ [ws], acc.2)
        else (acc.1, acc.2 ++ [ws]))
      (d, r) =
    (d ++ l.filter (trySend outcome),
     r ++ l.filter (fun ws => ! trySend outcome ws)) := by
  induction l with
  | nil => intro d r; simp
  | cons ws l ih =>
    intro d r
    rw [List.foldl_cons]
    by_cases hok : trySend outcome ws = true
    · rw [if_pos hok]
      rw [ih]
      rw [List.filter_cons_of_pos hok,
          List.filter_cons_of_neg (by simp [hok])]
      simp
    · rw [if_neg hok]
      rw [ih]
      rw [List.filter_cons_of_neg (by simpa using hok),
          List.filter_cons_of_pos (by simpa using hok)]
      simp

/-- C9: a broadcast delivers the snapshot to every subscriber whose send
succeeds, removes exactly the subscribers whose send fails, and itself
always completes normally (`.ok`), whatever the individual outcomes. -/
theorem broadcast_removes_only_failures (clients : List ℕ)
    (outcome : ℕ → Except String Unit) :
    broadcastUpdate clients outcome =
      .ok (clients.filter (trySend outcome), clients.filter (trySend outcome)) := by
  unfold broadcastUpdate
  rw [broadcast_foldl]
  dsimp only
  rw [List.nil_append, List.nil_append]
  have key : ∀ x ∈ clients,
      (decide (x ∉ clients.filter (fun ws => ! trySend outcome ws))) =
        trySend outcome x := by
    intro x hx
    by_cases hok : trySend outcome x = true
    · rw [hok]
      simp [List.mem_filter, hok]
    · rw [Bool.not_eq_true] at hok
      rw [hok]
      simp [List.mem_filter, hx, hok]
  rw [List.filter_congr key]

/-- The fallback risk substituted by `_do_order` when the computed risk is
not a positive number.  The Python literal `0.01` denotes the IEEE-754
binary64 double 5764607523034235 / 2^59 (slightly above 1/100), and with
that value Python evaluates `200 // 0.01` to `19999.0`; using the exact
binary64 rational makes the embedding reproduce the program's quantity. -/
def fallbackRisk : ℚ := 5764607523034235 / 2 ^ 59

/-- `qty = max((int(200 // risk) // 10) * 10, 10)` (line 230).  Python's
float floor division is modelled as the exact rational floor; at every
input exercised in this development the two agree (all other values are
binary64-exact, and for the fallback risk the float computation also
yields 19999). -/
def roundQty (risk : ℚ) : ℤ :=
  max ((⌊(200 : ℚ) / risk⌋ / 10) * 10) 10

/-- The Python exception kinds `_do_order` can raise before reaching the
external calls: explicit `ValueError`s, and the `TypeError` produced by
`stop - price` when the referenced aggregate field is still `None`. -/
inductive PyErr where
  | valueError (msg : String)
  | typeError (msg : String)
deriving DecidableEq, Repr

/-- The external brokerage calls `_do_order` can issue, in order. -/
inductive ExtCall where
  | qualifyContracts (symbol : String)
  | placeOrder (side : String) (qty : ℤ)
deriving DecidableEq, Repr

/-- The success payload returned by `_do_order` (the externally assigned
`orderId` is omitted: it comes from the brokerage collaborator). -/
structure OrderResult where
  symbol : String
  side : String
  ref : String
  quantity : ℤ
  entryPrice : ℚ
  stopPrice : ℚ
deriving DecidableEq, Repr

/-- Lines 216-223 of `_do_order`: stop and per-unit risk selection.  For
`CUSTOM`, a missing `customStop` raises a `ValueError`; otherwise the stop
is read from the aggregate field named by `ref`.  When that field is still
`None`, Python evaluates `stop - price` (or `price - stop`) with
`stop = None` and raises a `TypeError` — before ever reaching the
`if stop is None` check on line 225, which is therefore dead code. -/
def pickStopRisk (entry : Entry) (price : ℚ) (side ref : String)
    (customStop : Option ℚ) : Except PyErr (ℚ × ℚ) :=
  if ref = "CUSTOM" then
    match customStop with
    | none => .error (.valueError "customStop required for CUSTOM stop")
    | some cs =>
      .ok (cs, if side = "SELL" then cs - price else price - cs)
  else
    match (if ref = "HOD" then entry.hod
           else if ref = "LOD" then entry.lod else entry.vwap) with
    | none =>
      .error (.typeError "unsupported operand type for -: NoneType and float")
    | some stop =>
      .ok (stop, if side = "SELL" then stop - price else price - stop)

/-- `_do_order`: returns the outcome, the list of external calls actually
issued (contract qualification then order placement — both only on the
success path), and the symbol table afterwards.  The function only reads
`symbol_data`, so the table component is `data` on every path. -/
def doOrder (data : String → Option Entry) (symbol side ref : String)
    (customStop : Option ℚ) :
    Except PyErr OrderResult × List ExtCall × (String → Option Entry) :=
  match data symbol with
  | none => (.error (.valueError (symbol ++ " not in watchlist")), [], data)
  | some entry =>
    match entry.price with
    | none => (.error (.valueError "Current price not available"), [], data)
    | some price =>
      match pickStopRisk entry price side ref customStop with
      | .error e => (.error e, [], data)
      | .ok (stop, risk0) =>
        let risk := if 0 < risk0 then risk0 else fallbackRisk
        let qty := roundQty risk
        (.ok { symbol := symbol, side := side, ref := ref, quantity := qty,
               entryPrice := price, stopPrice := stop },
         [.qualifyContracts symbol, .placeOrder side qty], data)

/-- The HTTP outcome of the `/api/order` endpoint (the gateway-connected
precondition is an external concern and elided). -/
inductive HTTPResult where
  | ok (r : OrderResult)
  | httpError (status : ℕ) (detail : String)
deriving DecidableEq, Repr

/-- `place_order`: normalises the symbol, runs `_do_order`, maps a
`ValueError` to HTTP 400 and any other exception to HTTP 500. -/
def place_order (data : String → Option Entry) (symbol side ref : String)
    (customStop : Option ℚ) : HTTPResult :=
  match (doOrder data (normalizeSym symbol) side ref customStop).1 with
  | .ok r => .ok r
  | .error (.valueError m) => .httpError 400 m
  | .error (.typeError m) => .httpError 500 ("Order error: " ++ m)

/-- A one-symbol `symbol_data` table. -/
def singletonData (sym : String) (e : Entry) : String → Option Entry :=
  fun s => if s = sym then some e else none

deriving instance DecidableEq for Except

/-- C10: whenever `_do_order` fails with any internally raised exception,
no external call (contract qualification or order placement) has been
issued and the symbol table is untouched. -/
theorem order_failure_is_atomic (data : String → Option Entry)
    (sym side ref : String) (cs : Option ℚ) (err : PyErr)
    (h : (doOrder data sym side ref cs).1 = .error err) :
    (doOrder data sym side ref cs).2.1 = [] ∧
    (doOrder data sym side ref cs).2.2 = data := by
  unfold doOrder at h ⊢
  cases hd : data sym with
  | none => exact ⟨rfl, rfl⟩
  | some entry =>
    rw [hd] at h
    dsimp only at h ⊢
    cases hp : entry.price with
    | none => exact ⟨rfl, rfl⟩
    | some price =>
      rw [hp] at h
      try dsimp only at h ⊢
      cases hpick : pickStopRisk entry price side ref cs with
      | error e => exact ⟨rfl, rfl⟩
      | ok sr =>
        obtain ⟨stop, risk0⟩ := sr
        rw [hpick] at h
        try dsimp only at h
        exact absurd h (by simp)

/-- Witness for C10 at a concrete input: ordering a symbol that is not in
the watchlist fails before any external call and leaves the table as-is. -/
theorem order_failure_is_atomic_witness :
    (doOrder sampleOldData "BBB" "SELL" "HOD" none).1 =
      .error (.valueError ("BBB" ++ " not in watchlist")) ∧
    ((doOrder sampleOldData "BBB" "SELL" "HOD" none).2.1 = [] ∧
      (doOrder sampleOldData "BBB" "SELL" "HOD" none).2.2 = sampleOldData) :=
  ⟨by set_option maxRecDepth 10000 in with_unfolding_all decide,
    order_failure_is_atomic sampleOldData "BBB" "SELL" "HOD" none
      (.valueError ("BBB" ++ " not in watchlist"))
      (by set_option maxRecDepth 10000 in with_unfolding_all decide)⟩

/-- The tracked entry used in the C2 evaluation: price available, `hod`
(and the other aggregates) still null. -/
def entryNullRef : Entry :=
  { price := some 100, hod := none, lod := none,
    vwap_num := 0, vwap_den := 0, vwap := none, testMode := false }

/-- C2 (code evaluation): with the symbol tracked, price set, and `hod`
still null, a SELL/HOD order does *not* fail with the ReferenceUnavailable
`ValueError` (HTTP 400) — line 223's `stop - price` raises a `TypeError`
first, which `place_order` surfaces as HTTP 500.  The `if stop is None`
`ValueError` on line 225 is unreachable. -/
theorem null_reference_raises_typeerror :
    (doOrder (singletonData "AAPL" entryNullRef) "AAPL" "SELL" "HOD" none).1 =
      .error (.typeError "unsupported operand type for -: NoneType and float") ∧
    place_order (singletonData "AAPL" entryNullRef) "AAPL" "SELL" "HOD" none =
      .httpError 500
        "Order error: unsupported operand type for -: NoneType and float" := by
  set_option maxRecDepth 10000 in with_unfolding_all decide

lemma doOrder_ok (data : String → Option Entry) (sym side ref : String)
    (cs : Option ℚ) (e : Entry) (p s r0 : ℚ)
    (h1 : data sym = some e) (h2 : e.price = some p)
    (h3 : pickStopRisk e p side ref cs = .ok (s, r0)) :
    doOrder data sym side ref cs =
      (.ok { symbol := sym, side := side, ref := ref,
             quantity := roundQty (if 0 < r0 then r0 else fallbackRisk),
             entryPrice := p, stopPrice := s },
       [.qualifyContracts sym,
        .placeOrder side (roundQty (if 0 < r0 then r0 else fallbackRisk))],
       data) := by
  unfold doOrder
  rw [h1]
  dsimp only
  rw [h2]
  dsimp only
  rw [h3]

/-- C3 amended: for every order computation that passes the earlier checks,
the quantity is `floor(200 / risk)` rounded down to the nearest multiple of
10 whenever that value is at least 10; when the rounded value is below 10
the order is *not* rejected — it is placed with the clamped minimum
quantity 10 (`max(..., 10)` on line 230; there is no QuantityTooSmall
failure in the code). -/
theorem order_quantity_formula (data : String → Option Entry)
    (sym side ref : String) (cs : Option ℚ) (e : Entry) (p s r0 : ℚ)
    (h1 : data sym = some e) (h2 : e.price = some p)
    (h3 : pickStopRisk e p side ref cs = .ok (s, r0)) :
    ((doOrder data sym side ref cs).1 =
      .ok { symbol := sym, side := side, ref := ref,
            quantity :=
              max ((⌊(200 : ℚ) / (if 0 < r0 then r0 else fallbackRisk)⌋ / 10) * 10) 10,
            entryPrice := p, stopPrice := s }) ∧
    ((⌊(200 : ℚ) / (if 0 < r0 then r0 else fallbackRisk)⌋ / 10) * 10 < 10 →
      (doOrder data sym side ref cs).1 =
        .ok { symbol := sym, side := side, ref := ref, quantity := 10,
              entryPrice := p, stopPrice := s }) ∧
    (10 ≤ (⌊(200 : ℚ) / (if 0 < r0 then r0 else fallbackRisk)⌋ / 10) * 10 →
      (doOrder data sym side ref cs).1 =
        .ok { symbol := sym, side := side, ref := ref,
              quantity :=
                (⌊(200 : ℚ) / (if 0 < r0 then r0 else fallbackRisk)⌋ / 10) * 10,
              entryPrice := p, stopPrice := s }) := by
  rw [doOrder_ok data sym side ref cs e p s r0 h1 h2 h3]
  dsimp only
  unfold roundQty
  refine ⟨rfl, ?_, ?_⟩
  · intro hlt
    rw [max_eq_right hlt.le]
  · intro hge
    rw [max_eq_left hge]

/-- The tracked entry (price 100, aggregates null) used in the C3
evaluations. -/
def entryPriced : Entry :=
  { price := some 100, hod := none, lod := none,
    vwap_num := 0, vwap_den := 0, vwap := none, testMode := false }

/-- Witness for the C3 amended theorem at a concrete input: SELL with
CUSTOM stop 125 at price 100 gives risk 25 and rounded quantity 0 < 10,
and the order is placed with quantity 10. -/
theorem order_quantity_formula_witness :
    singletonData "AAPL" entryPriced "AAPL" = some entryPriced ∧
    entryPriced.price = some 100 ∧
    pickStopRisk entryPriced 100 "SELL" "CUSTOM" (some 125) = .ok (125, 25) ∧
    (((doOrder (singletonData "AAPL" entryPriced) "AAPL" "SELL" "CUSTOM"
          (some 125)).1 =
      .ok { symbol := "AAPL", side := "SELL", ref := "CUSTOM",
            quantity :=
              max ((⌊(200 : ℚ) / (if 0 < (25 : ℚ) then 25 else fallbackRisk)⌋ / 10) * 10) 10,
            entryPrice := 100, stopPrice := 125 }) ∧
    ((⌊(200 : ℚ) / (if 0 < (25 : ℚ) then 25 else fallbackRisk)⌋ / 10) * 10 < 10 →
      (doOrder (singletonData "AAPL" entryPriced) "AAPL" "SELL" "CUSTOM"
          (some 125)).1 =
        .ok { symbol := "AAPL", side := "SELL", ref := "CUSTOM", quantity := 10,
              entryPrice := 100, stopPrice := 125 }) ∧
    (10 ≤ (⌊(200 : ℚ) / (if 0 < (25 : ℚ) then 25 else fallbackRisk)⌋ / 10) * 10 →
      (doOrder (singletonData "AAPL" entryPriced) "AAPL" "SELL" "CUSTOM"
          (some 125)).1 =
        .ok { symbol := "AAPL", side := "SELL", ref := "CUSTOM",
              quantity :=
                (⌊(200 : ℚ) / (if 0 < (25 : ℚ) then 25 else fallbackRisk)⌋ / 10) * 10,
              entryPrice := 100, stopPrice := 125 })) :=
  ⟨by with_unfolding_all decide,
   rfl,
   by set_option maxRecDepth 10000 in with_unfolding_all decide,
   order_quantity_formula (singletonData "AAPL" entryPriced) "AAPL" "SELL"
     "CUSTOM" (some 125) entryPriced 100 125 25
     (by with_unfolding_all decide) rfl
     (by set_option maxRecDepth 10000 in with_unfolding_all decide)⟩

/-- C3 counterexample: at price 100 with CUSTOM stop 125 (risk 25) the
rounded quantity is 0 < 10, yet the code places the order with quantity 10
instead of failing with QuantityTooSmall. -/
theorem small_quantity_clamped_not_rejected :
    (doOrder (singletonData "AAPL" entryPriced) "AAPL" "SELL" "CUSTOM"
        (some 125)).1 =
      .ok { symbol := "AAPL", side := "SELL", ref := "CUSTOM", quantity := 10,
            entryPrice := 100, stopPrice := 125 } ∧
    (⌊(200 : ℚ) / (125 - 100 : ℚ)⌋ / 10) * 10 < 10 := by
  set_option maxRecDepth 10000 in with_unfolding_all decide


lemma roundQty_fallbackRisk : roundQty fallbackRisk = 19990 := by
  set_option maxRecDepth 10000 in with_unfolding_all decide

/-- C4 amended: whenever the resolved risk is not positive, `_do_order`
substitutes the fallback risk (the binary64 value of the literal `0.01`)
and accepts the order with quantity exactly 19990 — not 20000, because
`200 // 0.01` is 19999 in binary64 arithmetic, and not a rejection. -/
theorem fallback_risk_quantity (data : String → Option Entry)
    (sym side ref : String) (cs : Option ℚ) (e : Entry) (p s r0 : ℚ)
    (h1 : data sym = some e) (h2 : e.price = some p)
    (h3 : pickStopRisk e p side ref cs = .ok (s, r0))
    (h4 : ¬ 0 < r0) :
    (doOrder data sym side ref cs).1 =
      .ok { symbol := sym, side := side, ref := ref, quantity := 19990,
            entryPrice := p, stopPrice := s } := by
  rw [doOrder_ok data sym side ref cs e p s r0 h1 h2 h3]
  dsimp only
  rw [if_neg h4, roundQty_fallbackRisk]

/-- The tracked entry whose hod equals its current price (risk 0), used in
the C4 evaluations. -/
def entryAtStop : Entry :=
  { price := some 100, hod := some 100, lod := some 100,
    vwap_num := 0, vwap_den := 0, vwap := none, testMode := false }

/-- Witness for the C4 amended theorem at the spec's own scenario:
price = 100, stop = hod = 100, SELL/HOD, risk 0. -/
theorem fallback_risk_quantity_witness :
    singletonData "AAPL" entryAtStop "AAPL" = some entryAtStop ∧
    entryAtStop.price = some 100 ∧
    pickStopRisk entryAtStop 100 "SELL" "HOD" none = .ok (100, 0) ∧
    ¬ (0 : ℚ) < 0 ∧
    (doOrder (singletonData "AAPL" entryAtStop) "AAPL" "SELL" "HOD" none).1 =
      .ok { symbol := "AAPL", side := "SELL", ref := "HOD", quantity := 19990,
            entryPrice := 100, stopPrice := 100 } :=
  ⟨by with_unfolding_all decide,
   rfl,
   by set_option maxRecDepth 10000 in with_unfolding_all decide,
   by with_unfolding_all decide,
   fallback_risk_quantity (singletonData "AAPL" entryAtStop) "AAPL" "SELL"
     "HOD" none entryAtStop 100 100 0
     (by with_unfolding_all decide) rfl
     (by set_option maxRecDepth 10000 in with_unfolding_all decide)
     (by with_unfolding_all decide)⟩

/-- C4 counterexample: at the claim's own input (price 100, stop 100,
SELL/HOD) the computed quantity is 19990, not the asserted 20000. -/
theorem fallback_quantity_not_20000 :
    (doOrder (singletonData "AAPL" entryAtStop) "AAPL" "SELL" "HOD" none).1 =
      .ok { symbol := "AAPL", side := "SELL", ref := "HOD", quantity := 19990,
            entryPrice := 100, stopPrice := 100 } ∧
    (19990 : ℤ) ≠ 20000 := by
  constructor
  · rw [doOrder_ok (singletonData "AAPL" entryAtStop) "AAPL" "SELL" "HOD" none
        entryAtStop 100 100 0
        (by with_unfolding_all decide) rfl
        (by set_option maxRecDepth 10000 in with_unfolding_all decide)]
    dsimp only
    rw [if_neg (by with_unfolding_all decide), roundQty_fallbackRisk]
  · decide

/-- C1 amended: `_do_order` performs no side/reference compatibility
check.  A combination outside the supported set (BUY with HOD, or SELL
with LOD) is processed exactly like a supported one: when the referenced
aggregate field is set, the stop is read from it and a market order is
placed (via the 0.01 fallback risk when the computed risk is not
positive); no UnsupportedReference error exists in the code. -/
theorem unsupported_combo_places_order (data : String → Option Entry)
    (sym : String) (cs : Option ℚ) (side ref : String) (e : Entry) (p s : ℚ)
    (hcombo : (side = "BUY" ∧ ref = "HOD") ∨ (side = "SELL" ∧ ref = "LOD"))
    (h1 : data sym = some e) (h2 : e.price = some p)
    (hs : (if ref = "HOD" then e.hod else e.lod) = some s) :
    ∃ q : ℤ, (doOrder data sym side ref cs).1 =
        .ok { symbol := sym, side := side, ref := ref, quantity := q,
              entryPrice := p, stopPrice := s } ∧
      (doOrder data sym side ref cs).2.1 =
        [.qualifyContracts sym, .placeOrder side q] := by
  rcases hcombo with ⟨hside, href⟩ | ⟨hside, href⟩ <;> subst hside <;> subst href
  · rw [if_pos rfl] at hs
    have hpick : pickStopRisk e p "BUY" "HOD" cs = .ok (s, p - s) := by
      unfold pickStopRisk
      rw [if_neg (by decide), if_pos rfl, hs]
      dsimp only
      rw [if_neg (by decide)]
    rw [doOrder_ok data sym "BUY" "HOD" cs e p s (p - s) h1 h2 hpick]
    exact ⟨_, rfl, rfl⟩
  · rw [if_neg (by decide)] at hs
    have hpick : pickStopRisk e p "SELL" "LOD" cs = .ok (s, s - p) := by
      unfold pickStopRisk
      rw [if_neg (by decide), if_neg (by decide), if_pos rfl, hs]
      dsimp only
      rw [if_pos rfl]
    rw [doOrder_ok data sym "SELL" "LOD" cs e p s (s - p) h1 h2 hpick]
    exact ⟨_, rfl, rfl⟩

/-- A tracked entry with price 100, hod 105 and lod 95, used in the C1
evaluations. -/
def entrySeeded : Entry :=
  { price := some 100, hod := some 105, lod := some 95,
    vwap_num := 0, vwap_den := 0, vwap := none, testMode := false }

/-- Witness for the C1 amended theorem at a concrete input: BUY with HOD
on a tracked symbol whose hod is set places an order instead of failing. -/
theorem unsupported_combo_places_order_witness :
    ((("BUY" : String) = "BUY" ∧ ("HOD" : String) = "HOD") ∨
      (("BUY" : String) = "SELL" ∧ ("HOD" : String) = "LOD")) ∧
    singletonData "AAPL" entrySeeded "AAPL" = some entrySeeded ∧
    entrySeeded.price = some 100 ∧
    (if ("HOD" : String) = "HOD" then entrySeeded.hod else entrySeeded.lod) =
      some 105 ∧
    ∃ q : ℤ,
      (doOrder (singletonData "AAPL" entrySeeded) "AAPL" "BUY" "HOD" none).1 =
        .ok { symbol := "AAPL", side := "BUY", ref := "HOD", quantity := q,
              entryPrice := 100, stopPrice := 105 } ∧
      (doOrder (singletonData "AAPL" entrySeeded) "AAPL" "BUY" "HOD" none).2.1 =
        [.qualifyContracts "AAPL", .placeOrder "BUY" q] :=
  ⟨by decide,
   by with_unfolding_all decide,
   rfl,
   by with_unfolding_all decide,
   unsupported_combo_places_order (singletonData "AAPL" entrySeeded) "AAPL"
     none "BUY" "HOD" entrySeeded 100 105
     (by decide)
     (by with_unfolding_all decide) rfl
     (by with_unfolding_all decide)⟩

/-- C1 counterexample: BUY with HOD (price 100, hod 105) does not fail
with any UnsupportedReference error — the order is placed, with the
fallback risk driving the quantity to 19990. -/
theorem buy_hod_not_rejected :
    (doOrder (singletonData "AAPL" entrySeeded) "AAPL" "BUY" "HOD" none).1 =
      .ok { symbol := "AAPL", side := "BUY", ref := "HOD", quantity := 19990,
            entryPrice := 100, stopPrice := 105 } ∧
    (doOrder (singletonData "AAPL" entrySeeded) "AAPL" "BUY" "HOD" none).2.1 ≠
      [] := by
  have hord := doOrder_ok (singletonData "AAPL" entrySeeded) "AAPL" "BUY"
    "HOD" none entrySeeded 100 105 (100 - 105)
    (by with_unfolding_all decide) rfl
    (by with_unfolding_all decide)
  constructor
  · rw [hord]
    dsimp only
    rw [if_neg (by with_unfolding_all decide), roundQty_fallbackRisk]
  · rw [hord]
    simp
